import Mathlib

/-!
Verification of the data-binding engine of the echo repository
(`DefaultBinder` and its helpers in the binder source file).

The Go source operates by runtime reflection over arbitrary destination
shapes.  The embedding models reflection explicitly: `Ty` is the reflected
type of a destination (with per-field tags, anonymity and exportedness),
`Val` is a reflected value, and the binder functions are translated
one-to-one from the source, threading the mutated value through instead of
mutating in place.  Machine integers are modelled as `Int`/`Nat` with the
exact base-10 range checks that `strconv` performs at the declared bit
width.
-/

namespace Echo

/-- Opaque handle for an uploaded file part (models `*multipart.FileHeader`
as an identity; the binder never inspects its contents, it only copies the
handles around). -/
structure FileHeader where
  id : Nat
deriving DecidableEq, Repr

/-- Reflection kinds, following `reflect.Kind` restricted to the kinds the
binder dispatches on.  The separate bit widths of the source's
`Int8/…/Uint64/Float32/Float64` cases live in `Ty`, so one kind per family
suffices here. -/
inductive Kind where
  | intK | uintK | boolK | floatK | strK | sliceK | ptrK | structK | mapK | ifaceK
deriving DecidableEq, Repr

mutual
/-- Reflected destination types.  `bits` is the `strconv` bit size
(0, 8, 16, 32 or 64 in the source; 0 stands for the platform-sized
`int`/`uint`).  `fileHeader` is the distinguished struct type
`multipart.FileHeader` that `isFieldMultipartFile` recognises by type
identity. -/
inductive Ty where
  | int (bits : Nat)
  | uint (bits : Nat)
  | bool
  | float (bits : Nat)
  | str
  | slice (elem : Ty)
  | ptr (elem : Ty)
  | strct (fields : List FieldDecl)
  | map (key : Ty) (elem : Ty)
  | iface
  | fileHeader

/-- One struct field as reflection reports it: its name, its struct tags
(`reflect.StructTag` restricted to a key/value list), whether it is an
anonymous (embedded) field, whether it is exported (`CanSet` on a field of
an addressable struct holds exactly for exported fields), and its type. -/
inductive FieldDecl where
  | mk (fname : String) (tags : List (String × String)) (anonymous : Bool)
      (exported : Bool) (ty : Ty)
end

def FieldDecl.fname : FieldDecl → String
  | .mk n _ _ _ _ => n

def FieldDecl.tags : FieldDecl → List (String × String)
  | .mk _ t _ _ _ => t

def FieldDecl.anonymous : FieldDecl → Bool
  | .mk _ _ a _ _ => a

def FieldDecl.exported : FieldDecl → Bool
  | .mk _ _ _ e _ => e

def FieldDecl.ty : FieldDecl → Ty
  | .mk _ _ _ _ t => t

/-- The kind of a reflected type (`reflect.Type.Kind`).  Note that
`multipart.FileHeader` is itself a struct type, so its kind is `structK`. -/
def Ty.kind : Ty → Kind
  | .int _ => .intK
  | .uint _ => .uintK
  | .bool => .boolK
  | .float _ => .floatK
  | .str => .strK
  | .slice _ => .sliceK
  | .ptr _ => .ptrK
  | .strct _ => .structK
  | .map _ _ => .mapK
  | .iface => .ifaceK
  | .fileHeader => .structK

/-- Reflected values.  A nil slice and an empty slice are both `slice []`
(the binder only ever observes length and elements).  A nil map is
`map []`. -/
inductive Val where
  | int (i : Int)
  | uint (n : Nat)
  | bool (b : Bool)
  | float (q : Rat)
  | str (s : String)
  | slice (elems : List Val)
  | ptr (p : Option Val)
  | struct (fields : List Val)
  | map (entries : List (String × Val))
  | file (f : FileHeader)

mutual
/-- The zero value of a type, as `reflect.New` produces it. -/
def zeroVal : Ty → Val
  | .int _ => .int 0
  | .uint _ => .uint 0
  | .bool => .bool false
  | .float _ => .float 0
  | .str => .str ""
  | .slice _ => .slice []
  | .ptr _ => .ptr none
  | .strct fs => .struct (zeroFields fs)
  | .map _ _ => .map []
  | .iface => .ptr none
  | .fileHeader => .file ⟨0⟩

def zeroFields : List FieldDecl → List Val
  | [] => []
  | .mk _ _ _ _ t :: fs => zeroVal t :: zeroFields fs
end

/-- Lookup of `reflect.StructTag.Get`: the value for a key, or `""` when
the tag is absent. -/
def tagGet (tags : List (String × String)) (key : String) : String :=
  match tags.find? (fun p => p.1 == key) with
  | some p => p.2
  | none => ""

/-- A `FieldSource`: the `map[string][]string` of a binding phase,
modelled as an association list (first entry wins on exact lookup). -/
abbrev Data := List (String × List String)

/-- A `FileSource`: the `map[string][]*multipart.FileHeader` of a
multipart body. -/
abbrev Files := List (String × List FileHeader)

/-- Exact-key lookup in a Go map modelled as an association list. -/
def lookupExact {α : Type} (m : List (String × α)) (k : String) : Option α :=
  match m.find? (fun p => p.1 == k) with
  | some p => some p.2
  | none => none

/-- Replacing insert, modelling assignment to a Go map key. -/
def mapSet {α : Type} (m : List (String × α)) (k : String) (v : α) :
    List (String × α) :=
  if m.any (fun p => p.1 == k) then
    m.map (fun p => if p.1 == k then (k, v) else p)
  else m ++ [(k, v)]

/-- Models `strings.EqualFold`; on the ASCII names the binder deals in,
Unicode simple folding and per-character lower-casing coincide. -/
def eqFold (a b : String) : Bool :=
  a.data.map Char.toLower == b.data.map Char.toLower

/-- Value of a base-10 digit string (callers have checked the digits). -/
def digitsToNat (cs : List Char) : Nat :=
  cs.foldl (fun a c => a * 10 + (c.toNat - 48)) 0

/-- Models `strconv.ParseUint(s, 10, bitSize)`: a nonempty string of
base-10 digits whose value fits in `bitSize` bits (`bitSize = 0` meaning
the 64-bit platform `uint`); no sign is accepted.  Returns `none` exactly
when the source returns a non-nil error, in which case `setUintField`
leaves the field untouched. -/
def parseUint (s : String) (bitSize : Nat) : Option Nat :=
  let eff := if bitSize == 0 then 64 else bitSize
  let cs := s.data
  if cs.isEmpty then none
  else if cs.all Char.isDigit then
    let n := digitsToNat cs
    if n ≤ 2 ^ eff - 1 then some n else none
  else none

/-- Models `strconv.ParseInt(s, 10, bitSize)`: an optional sign followed by
base-10 digits, range `[-2^(b-1), 2^(b-1)-1]` at the effective bit width. -/
def parseInt (s : String) (bitSize : Nat) : Option Int :=
  let eff := if bitSize == 0 then 64 else bitSize
  match s.data with
  | [] => none
  | c :: rest =>
    let p : Bool × List Char :=
      if c == '-' then (true, rest)
      else if c == '+' then (false, rest)
      else (false, c :: rest)
    if p.2.isEmpty then none
    else if p.2.all Char.isDigit then
      let n : Int := (digitsToNat p.2 : Nat)
      if p.1 then
        if n ≤ 2 ^ (eff - 1) then some (-n) else none
      else
        if n ≤ 2 ^ (eff - 1) - 1 then some n else none
    else none

/-- Models `strconv.ParseBool`: the twelve accepted literals. -/
def parseBool (s : String) : Option Bool :=
  if s == "1" || s == "t" || s == "T" || s == "TRUE" || s == "true" || s == "True" then
    some true
  else if s == "0" || s == "f" || s == "F" || s == "FALSE" || s == "false" || s == "False" then
    some false
  else none

/-- Splitting a character list at the '.' separators, for the decimal
literal forms of `parseFloat`. -/
def splitOnDot (cs : List Char) : List (List Char) :=
  match cs with
  | [] => [[]]
  | c :: rest =>
    let r := splitOnDot rest
    if c == '.' then [] :: r
    else
      match r with
      | h :: t => (c :: h) :: t
      | [] => [[c]]

/-- Models `strconv.ParseFloat` on plain decimal literals (optional sign,
digits, optional fractional part), the forms the binder's callers supply;
exponents, hex floats and inf/NaN spellings are outside the model, and the
value is kept as an exact rational rather than rounded to the declared
width.  `none` exactly when the source errors on such a literal. -/
def parseFloat (s : String) : Option Rat :=
  match s.data with
  | [] => none
  | c :: rest =>
    let p : Bool × List Char :=
      if c == '-' then (true, rest)
      else if c == '+' then (false, rest)
      else (false, c :: rest)
    match splitOnDot p.2 with
    | [ip] =>
      if ip.isEmpty then none
      else if ip.all Char.isDigit then
        let q : Rat := (digitsToNat ip : Nat)
        some (if p.1 then -q else q)
      else none
    | [ip, fp] =>
      if ip.isEmpty && fp.isEmpty then none
      else if (ip ++ fp).all Char.isDigit then
        let q : Rat := ((digitsToNat (ip ++ fp) : Nat) : Rat) / ((10 : Rat) ^ fp.length)
        some (if p.1 then -q else q)
      else none
    | _ => none

/-- The binder's error values.  `convErr` stands for the `strconv`
`*NumError` values (the spec's ConversionFailure class); `anonymousTag`
is the "query/param/form tags are not allowed with anonymous struct field"
error and `fileHeaderNotSupported` the "binding to multipart.FileHeader
struct is not supported" error (together the spec's AmbiguousMapping
class); `notStruct` is "binding element must be a struct" (the spec's
InvalidDestination class); `unknownType` is "unknown type". -/
inductive BindErr where
  | anonymousTag
  | notStruct
  | unknownType
  | fileHeaderNotSupported
  | convErr (value : String)
deriving DecidableEq, Repr

/-- Models `setIntField`: an empty string is replaced by "0" before
parsing; the field is written only when parsing succeeds. -/
def setIntField (value : String) (bitSize : Nat) (field : Val) :
    Val × Option BindErr :=
  let value := if value == "" then "0" else value
  match parseInt value bitSize with
  | some n => (.int n, none)
  | none => (field, some (.convErr value))

/-- Models `setUintField`: empty string becomes "0". -/
def setUintField (value : String) (bitSize : Nat) (field : Val) :
    Val × Option BindErr :=
  let value := if value == "" then "0" else value
  match parseUint value bitSize with
  | some n => (.uint n, none)
  | none => (field, some (.convErr value))

/-- Models `setBoolField`: empty string becomes "false". -/
def setBoolField (value : String) (field : Val) : Val × Option BindErr :=
  let value := if value == "" then "false" else value
  match parseBool value with
  | some b => (.bool b, none)
  | none => (field, some (.convErr value))

/-- Models `setFloatField`: empty string becomes "0.0".  The bit size does
not influence the modelled (exact rational) value. -/
def setFloatField (value : String) (_bitSize : Nat) (field : Val) :
    Val × Option BindErr :=
  let value := if value == "" then "0.0" else value
  match parseFloat value with
  | some q => (.float q, none)
  | none => (field, some (.convErr value))

/-- Whether a type implements `BindUnmarshaler`, `UnmarshalParams` or
`encoding.TextUnmarshaler`.  None of the built-in kinds the model covers
implements any of these hooks (and no claim under verification involves a
custom decodable type), so the capability tests of the source all evaluate
to false; the dispatch structure around them is kept verbatim. -/
def tyImplementsUnmarshaler (_ : Ty) : Bool := false

/-- Models `unmarshalInputsToField`.  `valueKind` is the kind the caller
passes (`typeField.Type.Kind()`), `fieldTy` the type of `field` itself.
When `valueKind` is pointer and the field is a nil pointer, the source
allocates the pointee with `reflect.New` before the capability test; this
side effect persists even when the capability test fails, so the possibly
allocated value is returned together with the `(ok, error)` pair. -/
def unmarshalInputsToField (valueKind : Kind) (fieldTy : Ty)
    (_values : List String) (field : Val) : Val × Bool × Option BindErr :=
  let field1 :=
    if valueKind == .ptrK then
      match fieldTy, field with
      | .ptr e, .ptr none => Val.ptr (some (zeroVal e))
      | _, _ => field
    else field
  -- the capability test on the (dereferenced) field: no modelled type
  -- implements bindMultipleUnmarshaler
  (field1, false, none)

/-- Models `unmarshalInputToField`, with the same pointer-allocation side
effect as `unmarshalInputsToField` and the `BindUnmarshaler` /
`encoding.TextUnmarshaler` dispatch, which no modelled type implements. -/
def unmarshalInputToField (valueKind : Kind) (fieldTy : Ty) (_val : String)
    (field : Val) : Val × Bool × Option BindErr :=
  let field1 :=
    if valueKind == .ptrK then
      match fieldTy, field with
      | .ptr e, .ptr none => Val.ptr (some (zeroVal e))
      | _, _ => field
    else field
  (field1, false, none)

/-- Models `setWithProperType`.  The source receives the kind and the
`reflect.Value` (which carries its type); the model passes the type, from
which the kind is computed.  The pointer case first runs
`unmarshalInputToField` (whose allocation guarantees the pointer is
non-nil) and then recurses on the pointee. -/
def setWithProperType (ty : Ty) (val : String) (field : Val) :
    Val × Option BindErr :=
  let r := unmarshalInputToField ty.kind ty val field
  if r.2.1 then (r.1, r.2.2)
  else
    match ty with
    | .ptr e =>
      (match r.1 with
      | .ptr (some p) =>
        let r2 := setWithProperType e val p
        (.ptr (some r2.1), r2.2)
      | other =>
        -- unreachable: unmarshalInputToField has allocated the pointee
        (other, some .unknownType))
    | .int bits => setIntField val bits r.1
    | .uint bits => setUintField val bits r.1
    | .bool => setBoolField val r.1
    | .float bits => setFloatField val bits r.1
    | .str => (.str val, none)
    | _ => (r.1, some .unknownType)

/-- Models `isFieldMultipartFile`: type-identity dispatch on the four
`multipart.FileHeader` shapes.  The bare struct type is recognised but
reported as an error, because a non-pointer cannot express absence. -/
def isFieldMultipartFile (field : Ty) : Bool × Option BindErr :=
  match field with
  | .ptr .fileHeader => (true, none)
  | .slice .fileHeader => (true, none)
  | .slice (.ptr .fileHeader) => (true, none)
  | .fileHeader => (true, some .fileHeaderNotSupported)
  | _ => (false, none)

/-- Models `setMultipartFileHeaderTypes`: looks the field's external name
up in the file source (exact match only) and, when at least one file part
is present, assigns according to the field's type.  Returns the new field
value, or `none` when nothing was set (no file parts, or an unhandled
type), in which case the caller falls through to value binding. -/
def setMultipartFileHeaderTypes (fieldTy : Ty) (inputFieldName : String)
    (files : Files) : Option Val :=
  match (lookupExact files inputFieldName).getD [] with
  | [] => none
  | fh :: rest =>
    match fieldTy with
    | .slice (.ptr .fileHeader) =>
      some (.slice ((fh :: rest).map (fun f => Val.ptr (some (.file f)))))
    | .slice .fileHeader => some (.slice ((fh :: rest).map Val.file))
    | .ptr .fileHeader => some (.ptr (some (.file fh)))
    | _ => none

/-- Name resolution against the field source (source lines around the
`data[inputFieldName]` lookup): exact map lookup first, then a
case-insensitive scan over all keys. -/
def resolveInput (data : Data) (inputFieldName : String) :
    Option (List String) :=
  match lookupExact data inputFieldName with
  | some v => some v
  | none =>
    match data.find? (fun p => eqFold p.1 inputFieldName) with
    | some p => some p.2
    | none => none

/-- The slice-allocation loop of `bindData`: a fresh slice sized to the
number of supplied values, each element (starting from its zero value)
coerced independently by `setWithProperType`; the first failing element
aborts, discarding the partially built slice. -/
def coerceSliceElems (elemTy : Ty) (vals : List String) :
    Except BindErr (List Val) :=
  match vals with
  | [] => .ok []
  | s :: rest =>
    match setWithProperType elemTy s (zeroVal elemTy) with
    | (w, none) =>
      (match coerceSliceElems elemTy rest with
      | .ok ws => .ok (w :: ws)
      | .error e => .error e)
    | (_, some e) => .error e

/-- The tail of the loop body of `bindData` (after the unmarshal attempts
and the pointer dereference): slice fields get a freshly coerced slice,
anything else a single coerced value. -/
def bindScalarOrSlice (ty : Ty) (field : Val) (inputValue : List String) :
    Val × Option BindErr :=
  if ty.kind == .sliceK then
    match ty with
    | .slice elemTy =>
      (match coerceSliceElems elemTy inputValue with
      | .ok ws => (.slice ws, none)
      | .error e => (field, some e))
    | _ => (field, none)
  else
    setWithProperType ty (inputValue.headD "") field

/-- The value-binding tail of the loop body of `bindData` for a tagged
field (source lines from the `data[inputFieldName]` lookup to the end of
the loop): name resolution, the two unmarshal attempts (whose pointer
allocations persist), the pointer dereference, then slice or scalar
coercion.  `declTyKind` is `typeField.Type.Kind()`, the kind of the
declared field type before the anonymous-pointer dereference; `workTy` and
`workVal` are the dereferenced type and value the loop works on.  An
absent name (no exact or case-insensitive key) leaves the field untouched
with no error. -/
def bindFieldData (declTyKind : Kind) (workTy : Ty) (workVal : Val)
    (inputFieldName : String) (data : Data) : Val × Option BindErr :=
  match resolveInput data inputFieldName with
  | none => (workVal, none)
  | some inputValue =>
    let r1 := unmarshalInputsToField declTyKind workTy inputValue workVal
    if r1.2.1 then (r1.1, r1.2.2)
    else
      let r2 := unmarshalInputToField declTyKind workTy (inputValue.headD "") r1.1
      if r2.2.1 then (r2.1, r2.2.2)
      else
        if workTy.kind == .ptrK then
          match workTy, r2.1 with
          | .ptr e, .ptr (some p) =>
            let r3 := bindScalarOrSlice e p inputValue
            (.ptr (some r3.1), r3.2)
          | _, _ =>
            -- unreachable: the unmarshal attempts allocate nil pointers
            (r2.1, none)
        else
          bindScalarOrSlice workTy r2.1 inputValue

/-- A destination: the reflected type and value behind the `interface{}`
pointer handed to the binder (`nil` modelled as `none`). -/
abbrev TVal := Ty × Val

/-- The map branch of `bindData` (string-keyed map destinations with
string, string-slice or interface elements; any other element type is
silently accepted as a no-op).  For string and interface elements only the
first value of each data entry is bound, preserving the source's
backward-compatibility choice. -/
def bindMapData (ty : Ty) (val : Val) (data : Data) :
    Option TVal × Option BindErr :=
  match ty with
  | .map _ eTy =>
    let isElemIface := eTy.kind == .ifaceK
    let isElemString := eTy.kind == .strK
    let isElemSliceStrs :=
      eTy.kind == .sliceK &&
        (match eTy with
        | .slice inner => inner.kind == .strK
        | _ => false)
    if !(isElemSliceStrs || isElemString || isElemIface) then
      (some (ty, val), none)
    else
      let entries :=
        match val with
        | .map es => es
        | _ => []
      let entries2 := data.foldl
        (fun m p =>
          mapSet m p.1
            (if isElemString || isElemIface then Val.str (p.2.headD "")
             else Val.slice (p.2.map Val.str)))
        entries
      (some (ty, .map entries2), none)
  | _ => (some (ty, val), none)

/-- Whether the destination type enters the map branch of `bindData`
(kind map with a string-kinded key). -/
def isStringKeyedMap (ty : Ty) : Bool :=
  match ty with
  | .map k _ => k.kind == .strK
  | _ => false

mutual
/-- Models `bindData`, the central field walker.  A nil destination or an
empty value-and-file source returns immediately with no error and no
mutation.  String-keyed maps are handled by `bindMapData`; a non-struct,
non-map destination is a silent no-op for the param/query/header phases
and the "binding element must be a struct" error otherwise; a struct
destination has its fields walked in declaration order.  The returned
value reflects all mutations performed before a failure, matching the
source's in-place reflection writes. -/
def bindData (destination : Option TVal) (data : Data) (tag : String)
    (dataFiles : Files) : Option TVal × Option BindErr :=
  match destination with
  | none => (none, none)
  | some (ty, val) =>
    if data.isEmpty && dataFiles.isEmpty then (some (ty, val), none)
    else
      if isStringKeyedMap ty then bindMapData ty val data
      else if !(ty.kind == .structK) then
        if tag == "param" || tag == "query" || tag == "header" then
          (some (ty, val), none)
        else (some (ty, val), some .notStruct)
      else
        match ty, val with
        | .strct decls, .struct vals =>
          let r := bindFields decls vals data tag dataFiles
          (some (.strct decls, .struct r.1), r.2)
        | _, _ =>
          -- `multipart.FileHeader` is the only other struct-kinded type;
          -- it declares no tagged bindable fields, so walking it is a
          -- no-op, as is a value that does not match its type
          (some (ty, val), none)
termination_by 4 * (match destination with | none => 0 | some tv => sizeOf tv.2) + 1

/-- The field loop of `bindData`: walks declarations and values in
lockstep, stopping at the first field error; already mutated earlier
fields keep their new values. -/
def bindFields (decls : List FieldDecl) (vals : List Val) (data : Data)
    (tag : String) (dataFiles : Files) : List Val × Option BindErr :=
  match decls, vals with
  | d :: ds, v :: vs =>
    let r := bindField d v data tag dataFiles
    (match r.2 with
    | some e => (r.1 :: vs, some e)
    | none =>
      let rs := bindFields ds vs data tag dataFiles
      (r.1 :: rs.1, rs.2))
  | _, _ => (vals, none)
termination_by 4 * sizeOf vals

/-- One iteration of the field loop (source lines from `typeField :=`
to the end of the loop body): anonymous pointer fields are dereferenced
(a nil anonymous pointer yields a non-settable value, so the field is
skipped), non-settable (unexported) fields are skipped, and the rest of
the body runs on the dereferenced type and value, whose mutations are
wrapped back into the pointer. -/
def bindField (decl : FieldDecl) (fv : Val) (data : Data) (tag : String)
    (dataFiles : Files) : Val × Option BindErr :=
  if decl.anonymous && decl.ty.kind == .ptrK then
    bindFieldAnonPtr decl fv data tag dataFiles
  else
    if !decl.exported then (fv, none)
    else bindFieldCore decl decl.ty fv data tag dataFiles
termination_by 4 * sizeOf fv + 3

/-- The anonymous-pointer case of one loop iteration: the field value is
dereferenced, the body works on the pointee and the mutated pointee is
wrapped back.  A nil anonymous pointer dereferences to reflect's zero
Value, which can never be set, so the source skips the field. -/
def bindFieldAnonPtr (decl : FieldDecl) (fv : Val) (data : Data)
    (tag : String) (dataFiles : Files) : Val × Option BindErr :=
  match decl.ty, fv with
  | .ptr inner, .ptr (some p) =>
    if !decl.exported then (fv, none)
    else
      let r := bindFieldCore decl inner p data tag dataFiles
      (.ptr (some r.1), r.2)
  | _, _ => (fv, none)
termination_by 4 * sizeOf fv + 2

/-- The loop body after the settability check.  `workTy`/`workVal` are the
(possibly dereferenced) field type and value.  In order: the
anonymous-struct-with-tag error, recursion into untagged plain struct
fields, multipart file handling, then tagged value binding via
`bindFieldData`. -/
def bindFieldCore (decl : FieldDecl) (workTy : Ty) (workVal : Val)
    (data : Data) (tag : String) (dataFiles : Files) :
    Val × Option BindErr :=
  let inputFieldName := tagGet decl.tags tag
  if decl.anonymous && workTy.kind == .structK && !(inputFieldName == "") then
    (workVal, some .anonymousTag)
  else if inputFieldName == "" then
    if !tyImplementsUnmarshaler workTy && workTy.kind == .structK then
      match bindData (some (workTy, workVal)) data tag dataFiles with
      | (some tv2, err) => (tv2.2, err)
      | (none, err) => (workVal, err)
    else (workVal, none)
  else
    if !dataFiles.isEmpty then
      match isFieldMultipartFile workTy with
      | (_, some e) => (workVal, some e)
      | (true, none) =>
        (match setMultipartFileHeaderTypes workTy inputFieldName dataFiles with
        | some v2 => (v2, none)
        | none => bindFieldData decl.ty.kind workTy workVal inputFieldName data)
      | (false, none) =>
        bindFieldData decl.ty.kind workTy workVal inputFieldName data
    else
      bindFieldData decl.ty.kind workTy workVal inputFieldName data
termination_by 4 * sizeOf workVal + 2
end

/-- Modelled from the spec: the media-type tokens used for body-phase
dispatch.  The constant declarations live outside the provided source
files; their values are the standard tokens the spec's §4.5 names
(structured JSON, the XML family, URL-encoded form, multipart form). -/
def MIMEApplicationJSON : String := "application/json"

/-- Modelled from the spec: see `MIMEApplicationJSON`. -/
def MIMEApplicationXML : String := "application/xml"

/-- Modelled from the spec: see `MIMEApplicationJSON`. -/
def MIMETextXML : String := "text/xml"

/-- Modelled from the spec: see `MIMEApplicationJSON`. -/
def MIMEApplicationForm : String := "application/x-www-form-urlencoded"

/-- Modelled from the spec: see `MIMEApplicationJSON`. -/
def MIMEMultipartForm : String := "multipart/form-data"

/-- Errors of the injected JSON deserialization capability: either an
already classified `*HTTPError` (passed through unchanged by `BindBody`)
or any other error (wrapped as a bad request). -/
inductive JsonErr where
  | httpError (code : Nat) (msg : String)
  | other (msg : String)
deriving DecidableEq, Repr

/-- Errors of the XML decoder: unsupported-type and syntax errors are
reported as distinct sub-kinds, anything else generically. -/
inductive XmlErr where
  | unsupportedType (msg : String)
  | syntaxError (line : Int) (msg : String)
  | other (msg : String)
deriving DecidableEq, Repr

/-- The classified errors a binding phase surfaces to the caller:
a 400-class wrapper around a binder error, a 400-class wrapper around a
codec message, a passed-through `*HTTPError` from the JSON capability, or
the 415 `ErrUnsupportedMediaType` sentinel. -/
inductive HErr where
  | badRequest (cause : BindErr)
  | badRequestMsg (msg : String)
  | httpPass (code : Nat) (msg : String)
  | unsupportedMediaType
deriving DecidableEq, Repr

/-- The request data the binder consumes from its collaborators: the
method, the routed path parameters, the parsed query, the header multimap,
the body length and declared content type, and the decoded form bodies
(`FormParams` merges URL query and body values for URL-encoded content,
a quirk of the standard library's parser that this model inherits as an
already merged multimap; `MultipartForm` splits into value and file
multimaps). -/
structure Request where
  method : String
  paramNames : List String
  paramValues : List String
  queryParams : Data
  header : Data
  contentLength : Int
  contentType : String
  formParams : Data
  multipartValue : Data
  multipartFile : Files

/-- The injected deserialization capabilities (the spec's Body
Deserializer Adapter collaborators): a pluggable JSON capability and the
XML document decoder, each mapping the destination to a new destination
and an optional error. -/
structure Codec where
  jsonDeserialize : Option TVal → Option TVal × Option JsonErr
  xmlDecode : Option TVal → Option TVal × Option XmlErr

/-- The path-parameter map: `params[name] = []string{values[i]}`, later
duplicates overwriting earlier ones as Go map assignment does. -/
def pathToParams (names : List String) (values : List String) : Data :=
  (names.zip values).foldl (fun m p => mapSet m p.1 [p.2]) []

/-- Models `BindPathParams`: path parameters under tag key "param",
failures wrapped as 400-class errors. -/
def BindPathParams (req : Request) (dest : Option TVal) :
    Option TVal × Option HErr :=
  let r := bindData dest (pathToParams req.paramNames req.paramValues) "param" []
  (r.1, r.2.map HErr.badRequest)

/-- Models `BindQueryParams`: query parameters under tag key "query". -/
def BindQueryParams (req : Request) (dest : Option TVal) :
    Option TVal × Option HErr :=
  let r := bindData dest req.queryParams "query" []
  (r.1, r.2.map HErr.badRequest)

/-- Models `BindHeaders`: the header multimap under tag key "header". -/
def BindHeaders (req : Request) (dest : Option TVal) :
    Option TVal × Option HErr :=
  let r := bindData dest req.header "header" []
  (r.1, r.2.map HErr.badRequest)

/-- White-space trimming on both ends of a character list (the source's
`strings.TrimSpace`; ASCII white space suffices for media-type tokens). -/
def trimChars (cs : List Char) : List Char :=
  ((cs.dropWhile Char.isWhitespace).reverse.dropWhile Char.isWhitespace).reverse

/-- The media-type token: everything before the first ";", with
surrounding white space trimmed, as the source computes it with
`strings.Cut` and `strings.TrimSpace`. -/
def mediatypeOf (contentType : String) : String :=
  String.mk (trimChars (contentType.data.takeWhile (fun c => !(c == ';'))))

/-- The message string the source formats for an XML decode failure. -/
def xmlErrMsg : XmlErr → String
  | .unsupportedType msg => "Unsupported type error: " ++ msg
  | .syntaxError line msg => "Syntax error: line=" ++ toString line ++ ", error=" ++ msg
  | .other msg => msg

/-- Models `BindBody`: a zero-length body returns immediately with no
error and no mutation; otherwise the media-type token dispatches to the
JSON capability (classified errors passed through, others wrapped), the
XML decoder (wrapped with sub-kind detail), the URL-encoded form walker,
the multipart walker (with the file source), or the
`ErrUnsupportedMediaType` sentinel. -/
def BindBody (codec : Codec) (req : Request) (dest : Option TVal) :
    Option TVal × Option HErr :=
  if req.contentLength == 0 then (dest, none)
  else
    let mediatype := mediatypeOf req.contentType
    if mediatype == MIMEApplicationJSON then
      match codec.jsonDeserialize dest with
      | (d, some (JsonErr.httpError c m)) => (d, some (.httpPass c m))
      | (d, some (JsonErr.other m)) => (d, some (.badRequestMsg m))
      | (d, none) => (d, none)
    else if mediatype == MIMEApplicationXML || mediatype == MIMETextXML then
      match codec.xmlDecode dest with
      | (d, some e) => (d, some (.badRequestMsg (xmlErrMsg e)))
      | (d, none) => (d, none)
    else if mediatype == MIMEApplicationForm then
      let r := bindData dest req.formParams "form" []
      (r.1, r.2.map HErr.badRequest)
    else if mediatype == MIMEMultipartForm then
      let r := bindData dest req.multipartValue "form" req.multipartFile
      (r.1, r.2.map HErr.badRequest)
    else (dest, some .unsupportedMediaType)

/-- Models `Bind`: path parameters, then query parameters — but only for
the GET, DELETE and HEAD methods — then the body, each phase aborting the
whole call on failure. -/
def Bind (codec : Codec) (req : Request) (dest : Option TVal) :
    Option TVal × Option HErr :=
  match BindPathParams req dest with
  | (d, some e) => (d, some e)
  | (d1, none) =>
    let afterQuery :=
      if req.method == "GET" || req.method == "DELETE" || req.method == "HEAD" then
        BindQueryParams req d1
      else (d1, none)
    match afterQuery with
    | (d, some e) => (d, some e)
    | (d2, none) => BindBody codec req d2

/-- Modelled from the spec: the two-phase pipeline (path, then body) that
`Bind` is claimed to collapse to when the method carries a body — a
comparison definition for the query-phase-skipping claim, not a
translation of source code. -/
def BindSkippingQueryPhase (codec : Codec) (req : Request)
    (dest : Option TVal) : Option TVal × Option HErr :=
  match BindPathParams req dest with
  | (d, some e) => (d, some e)
  | (d1, none) => BindBody codec req d1

/-- The primitive kinds of the coercion rules: signed and unsigned
integers of any declared bit width, booleans, floating-point numbers and
strings. -/
def Ty.primitive : Ty → Bool
  | .int _ => true
  | .uint _ => true
  | .bool => true
  | .float _ => true
  | .str => true
  | _ => false

/-- A single exported, non-anonymous destination field with the given
tags and type — the representative destination shape of the per-field
claims. -/
def oneField (tags : List (String × String)) (t : Ty) : FieldDecl :=
  .mk "F" tags false true t

/-- A destination struct with exactly the one field of `oneField`,
currently holding `v`. -/
def oneFieldDest (tags : List (String × String)) (t : Ty) (v : Val) :
    Option TVal :=
  some (.strct [oneField tags t], .struct [v])

/-- A trivial instantiation of the injected codec capabilities (identity,
no error), for scenarios whose media types never reach them. -/
def idCodec : Codec :=
  ⟨fun d => (d, none), fun d => (d, none)⟩

/-- The request of the phase-precedence scenario: a POST carrying path
parameter id = `p` and a URL-encoded body binding id = `b`. -/
def precedenceReq (p b : String) : Request where
  method := "POST"
  paramNames := ["id"]
  paramValues := [p]
  queryParams := []
  header := []
  contentLength := 1
  contentType := MIMEApplicationForm
  formParams := [("id", [b])]
  multipartValue := []
  multipartFile := []

/-- The same scenario with the body removed (zero content length), so the
path phase's binding stays observable. -/
def precedenceReqNoBody (p : String) : Request where
  method := "POST"
  paramNames := ["id"]
  paramValues := [p]
  queryParams := []
  header := []
  contentLength := 0
  contentType := MIMEApplicationForm
  formParams := []
  multipartValue := []
  multipartFile := []

/-- The request of the query-phase scenario: no path parameters, no body,
and a query string carrying id = 7, under the given method. -/
def queryReq (m : String) : Request where
  method := m
  paramNames := []
  paramValues := []
  queryParams := [("id", ["7"])]
  header := []
  contentLength := 0
  contentType := ""
  formParams := []
  multipartValue := []
  multipartFile := []

/-- A request with a zero-length body and an unrecognized media type. -/
def emptyBodyReq : Request where
  method := "POST"
  paramNames := []
  paramValues := []
  queryParams := []
  header := []
  contentLength := 0
  contentType := "application/msgpack"
  formParams := []
  multipartValue := []
  multipartFile := []

/-- A destination whose single field is tagged for both the path and the
body phase. -/
def precedenceDest (v : Val) : Option TVal :=
  oneFieldDest [("param", "id"), ("form", "id")] (.int 0) v

/-- A destination whose single field is tagged for the query phase. -/
def queryDest (v : Val) : Option TVal :=
  oneFieldDest [("query", "id")] (.int 0) v

/-- An anonymous embedded struct field (no nested fields needed) carrying
an explicit tag for the given key — the illegal shape of the
AmbiguousMapping claims. -/
def embTagged (key : String) : FieldDecl :=
  .mk "Emb" [(key, "e")] true true (.strct [])

/-- A destination consisting only of the illegal embedded tagged field. -/
def embOnlyDest : Option TVal :=
  some (.strct [embTagged "query"], .struct [.struct []])

/-- A destination with an ordinary bindable field `A` (tagged "a") in
front of the illegal embedded tagged field. -/
def embAfterDest : Option TVal :=
  some (.strct [.mk "A" [("query", "a")] false true (.int 0), embTagged "query"],
    .struct [.int 0, .struct []])

/-! Helper lemmas about the embedded binder, shared by the claim
theorems below. -/

theorem bindData_empty_sources (dest : Option TVal) (tag : String) :
    bindData dest [] tag [] = (dest, none) := by
  cases dest with
  | none => simp [bindData]
  | some tv =>
    obtain ⟨t, v⟩ := tv
    rw [bindData.eq_def]
    simp

theorem bindData_strct (decls : List FieldDecl) (vals : List Val) (data : Data)
    (tag : String) (files : Files) (h : (data.isEmpty && files.isEmpty) = false) :
    bindData (some (.strct decls, .struct vals)) data tag files =
      (some (.strct decls, .struct (bindFields decls vals data tag files).1),
        (bindFields decls vals data tag files).2) := by
  simp [bindData, h, isStringKeyedMap, Ty.kind]

theorem bindFields_nil (vals : List Val) (data : Data) (tag : String)
    (files : Files) : bindFields [] vals data tag files = (vals, none) := by
  simp [bindFields]

theorem bindFields_cons_ok (d : FieldDecl) (ds : List FieldDecl) (v v' : Val)
    (vs : List Val) (data : Data) (tag : String) (files : Files)
    (h : bindField d v data tag files = (v', none)) :
    bindFields (d :: ds) (v :: vs) data tag files =
      (v' :: (bindFields ds vs data tag files).1,
        (bindFields ds vs data tag files).2) := by
  simp [bindFields, h]

theorem bindFields_cons_err (d : FieldDecl) (ds : List FieldDecl) (v v' : Val)
    (vs : List Val) (data : Data) (tag : String) (files : Files)
    (e : BindErr) (h : bindField d v data tag files = (v', some e)) :
    bindFields (d :: ds) (v :: vs) data tag files = (v' :: vs, some e) := by
  simp [bindFields, h]

theorem bindField_plain (decl : FieldDecl) (v : Val) (data : Data)
    (tag : String) (files : Files) (h1 : decl.anonymous = false)
    (h2 : decl.exported = true) :
    bindField decl v data tag files = bindFieldCore decl decl.ty v data tag files := by
  simp [bindField, h1, h2]

theorem bindField_anon_nonptr (decl : FieldDecl) (v : Val) (data : Data)
    (tag : String) (files : Files) (h1 : decl.anonymous = true)
    (h2 : decl.ty.kind ≠ .ptrK) (h3 : decl.exported = true) :
    bindField decl v data tag files = bindFieldCore decl decl.ty v data tag files := by
  have h2' : (decl.ty.kind == Kind.ptrK) = false := by
    simp [h2]
  simp [bindField, h1, h2', h3]

theorem bindFieldCore_anon_tag_err (decl : FieldDecl) (workTy : Ty) (v : Val)
    (data : Data) (tag : String) (files : Files)
    (ha : decl.anonymous = true) (hk : workTy.kind = .structK)
    (ht : tagGet decl.tags tag ≠ "") :
    bindFieldCore decl workTy v data tag files = (v, some .anonymousTag) := by
  simp [bindFieldCore, ha, hk, ht]

theorem bindFieldCore_tagged_nofiles (decl : FieldDecl) (workTy : Ty) (v : Val)
    (data : Data) (tag : String) (nm : String) (ha : decl.anonymous = false)
    (ht : tagGet decl.tags tag = nm) (hne : nm ≠ "") :
    bindFieldCore decl workTy v data tag [] =
      bindFieldData decl.ty.kind workTy v nm data := by
  simp [bindFieldCore, ha, ht, hne]

theorem resolveInput_eq_none (data : Data) (nm : String)
    (h : ∀ p ∈ data, (p.1 == nm) = false ∧ eqFold p.1 nm = false) :
    resolveInput data nm = none := by
  have h1 : data.find? (fun p => p.1 == nm) = none :=
    List.find?_eq_none.mpr (fun x hx => by simp [(h x hx).1])
  have h2 : data.find? (fun p => eqFold p.1 nm) = none :=
    List.find?_eq_none.mpr (fun x hx => by simp [(h x hx).2])
  simp [resolveInput, lookupExact, h1, h2]

theorem bindFieldData_no_match (k : Kind) (workTy : Ty) (v : Val)
    (nm : String) (data : Data) (h : resolveInput data nm = none) :
    bindFieldData k workTy v nm data = (v, none) := by
  simp [bindFieldData, h]

theorem bindFieldData_scalar (t : Ty) (v : Val) (nm : String) (data : Data)
    (vals : List String) (h : resolveInput data nm = some vals)
    (h1 : t.kind ≠ .ptrK) (h2 : t.kind ≠ .sliceK) :
    bindFieldData t.kind t v nm data = setWithProperType t (vals.headD "") v := by
  have h1' : (t.kind == Kind.ptrK) = false := by simp [h1]
  have h2' : (t.kind == Kind.sliceK) = false := by simp [h2]
  simp [bindFieldData, h, unmarshalInputsToField, unmarshalInputToField, h1',
    bindScalarOrSlice, h2']

theorem parseInt_zero (bits : Nat) : parseInt "0" bits = some 0 := by
  have h1 : (0:Int) < 2 ^ ((if bits = 0 then 64 else bits) - 1) := by positivity
  simp [parseInt, digitsToNat]
  omega

theorem parseFloat_zero : parseFloat "0.0" = some 0 := by
  have h : parseFloat "0.0" = some (((0 : Nat) : Rat) / (10 : Rat) ^ 1) := rfl
  rw [h]
  norm_num

theorem setWithProperType_empty_zero (ty : Ty) (v : Val)
    (h : ty.primitive = true) :
    setWithProperType ty "" v = (zeroVal ty, none) := by
  cases ty with
  | int bits =>
    simp [setWithProperType, unmarshalInputToField, Ty.kind, setIntField,
      parseInt_zero, zeroVal]
  | uint bits =>
    have hz : parseUint "0" bits = some 0 := by
      simp [parseUint, digitsToNat]
    simp [setWithProperType, unmarshalInputToField, Ty.kind, setUintField, hz, zeroVal]
  | bool =>
    simp [setWithProperType, unmarshalInputToField, Ty.kind, setBoolField,
      parseBool, zeroVal]
  | float bits =>
    simp [setWithProperType, unmarshalInputToField, Ty.kind, setFloatField,
      parseFloat_zero, zeroVal]
  | str =>
    simp [setWithProperType, unmarshalInputToField, Ty.kind, zeroVal]
  | slice e => simp [Ty.primitive] at h
  | ptr e => simp [Ty.primitive] at h
  | strct fs => simp [Ty.primitive] at h
  | map k e => simp [Ty.primitive] at h
  | iface => simp [Ty.primitive] at h
  | fileHeader => simp [Ty.primitive] at h



theorem parseInt_empty (bits : Nat) : parseInt "" bits = none := rfl

theorem setWithProperType_int (bits : Nat) (s : String) (v : Val) (n : Int)
    (h : parseInt s bits = some n) :
    setWithProperType (.int bits) s v = (.int n, none) := by
  have hne : (s == "") = false := by
    cases he : s == "" with
    | false => rfl
    | true =>
      have : s = "" := by simpa using he
      rw [this, parseInt_empty] at h
      cases h
  simp [setWithProperType, unmarshalInputToField, Ty.kind, setIntField, hne, h]

theorem bindField_oneField (tags : List (String × String)) (t : Ty) (v : Val)
    (data : Data) (tagKey : String) (files : Files) :
    bindField (oneField tags t) v data tagKey files =
      bindFieldCore (oneField tags t) t v data tagKey files := by
  rw [bindField_plain _ _ _ _ _ (by simp [oneField, FieldDecl.anonymous])
    (by simp [oneField, FieldDecl.exported])]
  simp [oneField, FieldDecl.ty]

theorem bindData_oneField (tags : List (String × String)) (t : Ty) (v : Val)
    (data : Data) (tagKey : String) (files : Files)
    (h : (data.isEmpty && files.isEmpty) = false) :
    bindData (oneFieldDest tags t v) data tagKey files =
      (some (.strct [oneField tags t],
        .struct [(bindField (oneField tags t) v data tagKey files).1]),
        (bindField (oneField tags t) v data tagKey files).2) := by
  rw [oneFieldDest, bindData_strct _ _ _ _ _ h]
  rcases hb : bindField (oneField tags t) v data tagKey files with ⟨v', oe⟩
  cases oe with
  | none => rw [bindFields_cons_ok _ _ _ _ _ _ _ _ hb, bindFields_nil]
  | some e => rw [bindFields_cons_err _ _ _ _ _ _ _ _ _ hb]

theorem bindFieldCore_tagged_files (decl : FieldDecl) (workTy : Ty) (v : Val)
    (data : Data) (tag : String) (files : Files) (nm : String)
    (ha : decl.anonymous = false) (ht : tagGet decl.tags tag = nm)
    (hne : nm ≠ "") (hf : files ≠ []) :
    bindFieldCore decl workTy v data tag files =
      (match isFieldMultipartFile workTy with
       | (_, some e) => (v, some e)
       | (true, none) =>
         (match setMultipartFileHeaderTypes workTy nm files with
          | some v2 => (v2, none)
          | none => bindFieldData decl.ty.kind workTy v nm data)
       | (false, none) => bindFieldData decl.ty.kind workTy v nm data) := by
  have hf' : files.isEmpty = false := by
    cases files with
    | nil => exact absurd rfl hf
    | cons a l => rfl
  simp [bindFieldCore, ha, ht, hne, hf']

theorem bindFieldData_slice (e : Ty) (v : Val) (nm : String) (data : Data)
    (vals : List String) (k : Kind) (h : resolveInput data nm = some vals)
    (hk : k ≠ .ptrK) :
    bindFieldData k (.slice e) v nm data =
      (match coerceSliceElems e vals with
       | .ok ws => (.slice ws, none)
       | .error err => (v, some err)) := by
  have hk' : (k == Kind.ptrK) = false := by simp [hk]
  simp [bindFieldData, h, unmarshalInputsToField, unmarshalInputToField, hk',
    Ty.kind, bindScalarOrSlice]

theorem coerceSliceElems_ok (e : Ty) (vals : List String)
    (h : ∀ s ∈ vals, (setWithProperType e s (zeroVal e)).2 = none) :
    coerceSliceElems e vals =
      .ok (vals.map (fun s => (setWithProperType e s (zeroVal e)).1)) := by
  induction vals with
  | nil => simp [coerceSliceElems]
  | cons s rest ih =>
    have hs := h s (by simp)
    have ihr := ih (fun x hx => h x (by simp [hx]))
    rcases hw : setWithProperType e s (zeroVal e) with ⟨w, oe⟩
    rw [hw] at hs
    simp at hs
    subst hs
    simp [coerceSliceElems, hw, ihr]

theorem coerceSliceElems_err (e : Ty) (pre : List String) (s : String)
    (rest : List String) (err : BindErr)
    (hpre : ∀ x ∈ pre, (setWithProperType e x (zeroVal e)).2 = none)
    (hs : (setWithProperType e s (zeroVal e)).2 = some err) :
    coerceSliceElems e (pre ++ s :: rest) = .error err := by
  induction pre with
  | nil =>
    rcases hw : setWithProperType e s (zeroVal e) with ⟨w, oe⟩
    rw [hw] at hs
    simp at hs
    subst hs
    simp [coerceSliceElems, hw]
  | cons x xs ih =>
    have hx := hpre x (by simp)
    have ihr := ih (fun y hy => hpre y (by simp [hy]))
    rcases hw : setWithProperType e x (zeroVal e) with ⟨w, oe⟩
    rw [hw] at hx
    simp at hx
    subst hx
    simp [coerceSliceElems, hw, ihr]

theorem bindFields_append_ok (ds1 : List FieldDecl) (ds2 : List FieldDecl)
    (vs1 vs2 : List Val) (data : Data) (tag : String) (files : Files)
    (hlen : ds1.length = vs1.length)
    (h : (bindFields ds1 vs1 data tag files).2 = none) :
    bindFields (ds1 ++ ds2) (vs1 ++ vs2) data tag files =
      ((bindFields ds1 vs1 data tag files).1 ++ (bindFields ds2 vs2 data tag files).1,
        (bindFields ds2 vs2 data tag files).2) := by
  induction ds1 generalizing vs1 with
  | nil =>
    cases vs1 with
    | nil => simp [bindFields_nil]
    | cons v vs => simp at hlen
  | cons d ds ih =>
    cases vs1 with
    | nil => simp at hlen
    | cons v vs =>
      have hlen' : ds.length = vs.length := by simpa using hlen
      rcases hb : bindField d v data tag files with ⟨v', oe⟩
      cases oe with
      | some e =>
        rw [bindFields_cons_err _ _ _ _ _ _ _ _ _ hb] at h
        cases h
      | none =>
        rw [bindFields_cons_ok _ _ _ _ _ _ _ _ hb] at h
        simp only [List.cons_append, bindFields_cons_ok _ _ _ _ _ _ _ _ hb]
        rw [ih vs hlen' h]

/-! The claim theorems, with their witnesses and counterexamples. -/

/-- C10: whenever both the value map and the file map passed to `bindData`
are empty, or the destination is nil, `bindData` returns success
immediately and the destination is left completely unchanged: no field is
assigned and no validation of the destination's shape is performed —
the equation holds for every destination, including ones whose shape
would fail the embedded-field-with-tag or bare file-handle checks. -/
theorem claim_C10 (dest : Option TVal) (data : Data) (tag : String)
    (dataFiles : Files) (h : (data = [] ∧ dataFiles = []) ∨ dest = none) :
    bindData dest data tag dataFiles = (dest, none) := by
  rcases h with ⟨h1, h2⟩ | h
  · subst h1; subst h2; exact bindData_empty_sources dest tag
  · subst h; simp [bindData]

/-- Witness for C10, at a destination consisting of an anonymous embedded
struct field with an explicit tag — the shape whose validation would fail
if it ran. -/
theorem claim_C10_witness :
    bindData embOnlyDest [] "query" [] = (embOnlyDest, none) :=
  claim_C10 embOnlyDest [] "query" [] (Or.inl ⟨rfl, rfl⟩)

/-- C8: for every request whose body has zero length, `BindBody` returns
success without mutating the destination, regardless of the declared
content type — including unrecognized media types. -/
theorem claim_C8 (codec : Codec) (req : Request) (dest : Option TVal)
    (h : req.contentLength = 0) :
    BindBody codec req dest = (dest, none) := by
  simp [BindBody, h]

/-- Witness for C8, at a request declaring an unrecognized media type that
would otherwise yield UnsupportedMediaType. -/
theorem claim_C8_witness :
    BindBody idCodec emptyBodyReq (queryDest (.int 0)) =
      (queryDest (.int 0), none) :=
  claim_C8 idCodec emptyBodyReq (queryDest (.int 0)) rfl

/-- C9 counterexample: with empty sources (and `bindData`'s early return
not reached past them), the body phase on an `int` destination root
succeeds as a no-op instead of returning the InvalidDestination-class
error the claim asserts unconditionally. -/
theorem claim_C9_counterexample :
    bindData (some (.int 0, .int 7)) [] "form" [] =
      (some (.int 0, .int 7), none) :=
  bindData_empty_sources (some (.int 0, .int 7)) "form"

/-- C9 (as amended): provided the destination is non-nil and at least one
key is present in the value or file source, a destination root that is
neither a struct nor a string-keyed map makes the body phase (tag key
"form") fail with the InvalidDestination-class error, while the path,
query and header phases return success without mutating anything. -/
theorem claim_C9 (ty : Ty) (v : Val) (data : Data) (files : Files)
    (h1 : ty.kind ≠ .structK) (h2 : isStringKeyedMap ty = false)
    (h3 : ¬(data = [] ∧ files = [])) :
    bindData (some (ty, v)) data "form" files =
      (some (ty, v), some .notStruct) ∧
    bindData (some (ty, v)) data "param" files = (some (ty, v), none) ∧
    bindData (some (ty, v)) data "query" files = (some (ty, v), none) ∧
    bindData (some (ty, v)) data "header" files = (some (ty, v), none) := by
  have hni : (data.isEmpty && files.isEmpty) = false := by
    rcases data with _ | ⟨p, ps⟩
    · rcases files with _ | ⟨q, qs⟩
      · exact absurd ⟨rfl, rfl⟩ h3
      · rfl
    · rfl
  have h1' : (!(ty.kind == Kind.structK)) = true := by simp [h1]
  refine ⟨?_, ?_, ?_, ?_⟩ <;>
  · rw [bindData.eq_def]
    simp [hni, h2, h1']

/-- Witness for C9, at an `int` destination root with a one-key source. -/
theorem claim_C9_witness :
    bindData (some (.int 0, .int 7)) [("x", ["1"])] "form" [] =
      (some (.int 0, .int 7), some .notStruct) ∧
    bindData (some (.int 0, .int 7)) [("x", ["1"])] "param" [] =
      (some (.int 0, .int 7), none) ∧
    bindData (some (.int 0, .int 7)) [("x", ["1"])] "query" [] =
      (some (.int 0, .int 7), none) ∧
    bindData (some (.int 0, .int 7)) [("x", ["1"])] "header" [] =
      (some (.int 0, .int 7), none) :=
  claim_C9 (.int 0) (.int 7) [("x", ["1"])] [] (by decide) rfl (by decide)

theorem primitive_kind_not_ptr_slice (ty : Ty) (h : ty.primitive = true) :
    ty.kind ≠ .ptrK ∧ ty.kind ≠ .sliceK := by
  cases ty <;> simp_all [Ty.primitive, Ty.kind]

/-- C4: for every primitive field kind, a present source key whose first
value is the empty string yields that kind's zero value and never a
conversion error — at the coercion level and through a full `bindData`
walk — whereas an absent key (no exact or case-insensitive match) skips
the field untouched. -/
theorem claim_C4 :
    (∀ (ty : Ty) (v : Val), ty.primitive = true →
      setWithProperType ty "" v = (zeroVal ty, none)) ∧
    (∀ (ty : Ty) (v : Val), ty.primitive = true →
      bindData (oneFieldDest [("form", "val")] ty v) [("val", [""])] "form" [] =
        (oneFieldDest [("form", "val")] ty (zeroVal ty), none)) ∧
    (∀ (ty : Ty) (v : Val) (data : Data), ty.primitive = true →
      (∀ p ∈ data, (p.1 == "val") = false ∧ eqFold p.1 "val" = false) →
      bindData (oneFieldDest [("form", "val")] ty v) data "form" [] =
        (oneFieldDest [("form", "val")] ty v, none)) := by
  refine ⟨fun ty v h => setWithProperType_empty_zero ty v h, ?_, ?_⟩
  · intro ty v h
    rw [bindData_oneField [("form", "val")] ty v [("val", [""])] "form" [] rfl,
      bindField_oneField,
      bindFieldCore_tagged_nofiles _ _ _ _ _ "val"
        (by simp [oneField, FieldDecl.anonymous])
        (by simp [oneField, FieldDecl.tags, tagGet])
        (by decide)]
    have hres : resolveInput [("val", [""])] "val" = some [""] := by
      simp [resolveInput, lookupExact]
    have hdty : (oneField [("form", "val")] ty).ty = ty := rfl
    rw [hdty, bindFieldData_scalar _ _ _ _ _ hres
      (primitive_kind_not_ptr_slice ty h).1 (primitive_kind_not_ptr_slice ty h).2]
    rw [show (([""] : List String).headD "") = "" from rfl,
      setWithProperType_empty_zero ty v h]
    simp [oneFieldDest]
  · intro ty v data h hnone
    rcases data with _ | ⟨p, ps⟩
    · exact bindData_empty_sources _ _
    · rw [bindData_oneField [("form", "val")] ty v (p :: ps) "form" [] rfl,
        bindField_oneField,
        bindFieldCore_tagged_nofiles _ _ _ _ _ "val"
          (by simp [oneField, FieldDecl.anonymous])
          (by simp [oneField, FieldDecl.tags, tagGet])
          (by decide)]
      rw [bindFieldData_no_match _ _ _ _ _ (resolveInput_eq_none _ _ hnone)]
      simp [oneFieldDest]

/-- Witness for C4: an empty-string uint8 coerces to 0, an empty-string
bool binds to false through `bindData`, and an absent key leaves an int32
field untouched. -/
theorem claim_C4_witness :
    setWithProperType (.uint 8) "" (.uint 3) = (.uint 0, none) ∧
    bindData (oneFieldDest [("form", "val")] .bool (.bool true)) [("val", [""])]
        "form" [] =
      (oneFieldDest [("form", "val")] .bool (.bool false), none) ∧
    bindData (oneFieldDest [("form", "val")] (.int 32) (.int 5))
        [("other", ["9"])] "form" [] =
      (oneFieldDest [("form", "val")] (.int 32) (.int 5), none) := by
  refine ⟨?_, ?_, ?_⟩
  · simpa [zeroVal] using claim_C4.1 (.uint 8) (.uint 3) rfl
  · simpa [zeroVal] using claim_C4.2.1 .bool (.bool true) rfl
  · exact claim_C4.2.2 (.int 32) (.int 5) [("other", ["9"])] rfl (by decide)

/-- C6: name resolution for a tagged field tries an exact-match lookup
first (an exact key beats a case-insensitive one), falls back to a
case-insensitive scan of all keys (a source key "X-Name" binds into a
field tagged "x-name" when no exact-case match exists), and when no key
matches either way the field is skipped entirely with no value assigned
and no error. -/
theorem claim_C6 :
    (∀ (s1 s2 : String) (n : Int), parseInt s1 0 = some n →
      bindData (oneFieldDest [("query", "x-name")] (.int 0) (.int 0))
          [("x-name", [s1]), ("X-Name", [s2])] "query" [] =
        (oneFieldDest [("query", "x-name")] (.int 0) (.int n), none)) ∧
    (∀ (s : String) (n : Int), parseInt s 0 = some n →
      bindData (oneFieldDest [("query", "x-name")] (.int 0) (.int 0))
          [("X-Name", [s])] "query" [] =
        (oneFieldDest [("query", "x-name")] (.int 0) (.int n), none)) ∧
    (∀ (t : Ty) (v : Val) (data : Data),
      (∀ p ∈ data, (p.1 == "x-name") = false ∧ eqFold p.1 "x-name" = false) →
      bindData (oneFieldDest [("query", "x-name")] t v) data "query" [] =
        (oneFieldDest [("query", "x-name")] t v, none)) := by
  refine ⟨?_, ?_, ?_⟩
  · intro s1 s2 n hn
    rw [bindData_oneField [("query", "x-name")] (.int 0) (.int 0)
        [("x-name", [s1]), ("X-Name", [s2])] "query" [] rfl,
      bindField_oneField,
      bindFieldCore_tagged_nofiles _ _ _ _ _ "x-name"
        (by simp [oneField, FieldDecl.anonymous])
        (by simp [oneField, FieldDecl.tags, tagGet])
        (by decide)]
    have hres : resolveInput [("x-name", [s1]), ("X-Name", [s2])] "x-name" =
        some [s1] := by
      simp [resolveInput, lookupExact]
    have hdty : (oneField [("query", "x-name")] (Ty.int 0)).ty = Ty.int 0 := rfl
    rw [hdty, bindFieldData_scalar _ _ _ _ _ hres (by decide) (by decide)]
    rw [show (([s1] : List String).headD "") = s1 from rfl,
      setWithProperType_int _ _ _ _ hn]
    simp [oneFieldDest]
  · intro s n hn
    rw [bindData_oneField [("query", "x-name")] (.int 0) (.int 0)
        [("X-Name", [s])] "query" [] rfl,
      bindField_oneField,
      bindFieldCore_tagged_nofiles _ _ _ _ _ "x-name"
        (by simp [oneField, FieldDecl.anonymous])
        (by simp [oneField, FieldDecl.tags, tagGet])
        (by decide)]
    have hres : resolveInput [("X-Name", [s])] "x-name" = some [s] := by
      have he : eqFold "X-Name" "x-name" = true := by decide
      simp [resolveInput, lookupExact, he]
    have hdty : (oneField [("query", "x-name")] (Ty.int 0)).ty = Ty.int 0 := rfl
    rw [hdty, bindFieldData_scalar _ _ _ _ _ hres (by decide) (by decide)]
    rw [show (([s] : List String).headD "") = s from rfl,
      setWithProperType_int _ _ _ _ hn]
    simp [oneFieldDest]
  · intro t v data hnone
    rcases data with _ | ⟨p, ps⟩
    · exact bindData_empty_sources _ _
    · rw [bindData_oneField [("query", "x-name")] t v (p :: ps) "query" [] rfl,
        bindField_oneField,
        bindFieldCore_tagged_nofiles _ _ _ _ _ "x-name"
          (by simp [oneField, FieldDecl.anonymous])
          (by simp [oneField, FieldDecl.tags, tagGet])
          (by decide)]
      rw [bindFieldData_no_match _ _ _ _ _ (resolveInput_eq_none _ _ hnone)]
      simp [oneFieldDest]

/-- Witness for C6: value 42 under key "x-name" beats "X-Name", binds
case-insensitively when only "X-Name" is present, and key "y" matching
nothing leaves the field untouched. -/
theorem claim_C6_witness :
    bindData (oneFieldDest [("query", "x-name")] (.int 0) (.int 0))
        [("x-name", ["42"]), ("X-Name", ["7"])] "query" [] =
      (oneFieldDest [("query", "x-name")] (.int 0) (.int 42), none) ∧
    bindData (oneFieldDest [("query", "x-name")] (.int 0) (.int 0))
        [("X-Name", ["42"])] "query" [] =
      (oneFieldDest [("query", "x-name")] (.int 0) (.int 42), none) ∧
    bindData (oneFieldDest [("query", "x-name")] (.str) (.str "keep"))
        [("y", ["1"])] "query" [] =
      (oneFieldDest [("query", "x-name")] .str (.str "keep"), none) :=
  ⟨claim_C6.1 "42" "7" 42 (by decide),
   claim_C6.2.1 "42" 42 (by decide),
   claim_C6.2.2 .str (.str "keep") [("y", ["1"])] (by decide)⟩

/-- C5: a slice field bound from a repeated key with values `vals` gets a
slice of exactly `vals.length` elements, in original order, each coerced
independently by `setWithProperType` from the element's zero value; a
failing element aborts the bind with that element's error and leaves the
field untouched. -/
theorem claim_C5 (e : Ty) (v : Val) (vals : List String) (_hv : vals ≠ []) :
    ((∀ s ∈ vals, (setWithProperType e s (zeroVal e)).2 = none) →
      bindData (oneFieldDest [("form", "xs")] (.slice e) v) [("xs", vals)]
          "form" [] =
        (oneFieldDest [("form", "xs")] (.slice e)
          (.slice (vals.map (fun s => (setWithProperType e s (zeroVal e)).1))),
          none) ∧
      (vals.map (fun s => (setWithProperType e s (zeroVal e)).1)).length =
        vals.length) ∧
    (∀ (pre : List String) (s : String) (rest : List String) (err : BindErr),
      vals = pre ++ s :: rest →
      (∀ x ∈ pre, (setWithProperType e x (zeroVal e)).2 = none) →
      (setWithProperType e s (zeroVal e)).2 = some err →
      bindData (oneFieldDest [("form", "xs")] (.slice e) v) [("xs", vals)]
          "form" [] =
        (oneFieldDest [("form", "xs")] (.slice e) v, some err)) := by
  have hres : resolveInput [("xs", vals)] "xs" = some vals := by
    simp [resolveInput, lookupExact]
  have hdty : (oneField [("form", "xs")] (Ty.slice e)).ty = Ty.slice e := rfl
  constructor
  · intro hok
    rw [bindData_oneField [("form", "xs")] (.slice e) v [("xs", vals)] "form" []
        rfl,
      bindField_oneField,
      bindFieldCore_tagged_nofiles _ _ _ _ _ "xs"
        (by simp [oneField, FieldDecl.anonymous])
        (by simp [oneField, FieldDecl.tags, tagGet])
        (by decide),
      hdty, bindFieldData_slice _ _ _ _ _ _ hres (by simp [Ty.kind]),
      coerceSliceElems_ok _ _ hok]
    simp [oneFieldDest]
  · intro pre s rest err hsplit hpre hs
    rw [bindData_oneField [("form", "xs")] (.slice e) v [("xs", vals)] "form" []
        rfl,
      bindField_oneField,
      bindFieldCore_tagged_nofiles _ _ _ _ _ "xs"
        (by simp [oneField, FieldDecl.anonymous])
        (by simp [oneField, FieldDecl.tags, tagGet])
        (by decide),
      hdty, bindFieldData_slice _ _ _ _ _ _ hres (by simp [Ty.kind]),
      hsplit, coerceSliceElems_err _ _ _ _ _ hpre hs]
    simp [oneFieldDest]

/-- Witness for C5: values "1","2" produce the two-element slice in order,
and values "1","x" abort with the conversion error of "x" leaving the
field untouched. -/
theorem claim_C5_witness :
    bindData (oneFieldDest [("form", "xs")] (.slice (.int 0)) (.slice []))
        [("xs", ["1", "2"])] "form" [] =
      (oneFieldDest [("form", "xs")] (.slice (.int 0))
        (.slice [.int 1, .int 2]), none) ∧
    bindData (oneFieldDest [("form", "xs")] (.slice (.int 0)) (.slice []))
        [("xs", ["1", "x"])] "form" [] =
      (oneFieldDest [("form", "xs")] (.slice (.int 0)) (.slice []),
        some (.convErr "x")) := by
  have h1 : ∀ s ∈ (["1", "2"] : List String),
      (setWithProperType (.int 0) s (zeroVal (.int 0))).2 = none := by decide
  have h2 := ((claim_C5 (.int 0) (.slice []) ["1", "2"] (by decide)).1 h1).1
  have hmap : (["1", "2"] : List String).map
      (fun s => (setWithProperType (.int 0) s (zeroVal (.int 0))).1) =
      [Val.int 1, Val.int 2] := rfl
  constructor
  · rw [hmap] at h2
    exact h2
  · refine (claim_C5 (.int 0) (.slice []) ["1", "x"] (by decide)).2 ["1"] "x" []
      (.convErr "x") rfl (by decide) (by decide)

/-- C7: in a multipart binding with a nonempty file source, a field typed
`[]*multipart.FileHeader` with no uploaded part for its name (and no text
value either) keeps its zero-length slice with no error, while a field
typed as a bare `multipart.FileHeader` fails with the
AmbiguousMapping-class error when a part for it is present. -/
theorem claim_C7 :
    (∀ (files : Files) (data : Data),
      files ≠ [] →
      (lookupExact files "doc").getD [] = [] →
      (∀ p ∈ data, (p.1 == "doc") = false ∧ eqFold p.1 "doc" = false) →
      bindData
          (oneFieldDest [("form", "doc")] (.slice (.ptr .fileHeader)) (.slice []))
          data "form" files =
        (oneFieldDest [("form", "doc")] (.slice (.ptr .fileHeader)) (.slice []),
          none)) ∧
    (∀ (files : Files) (f : FileHeader) (fs : List FileHeader) (data : Data),
      lookupExact files "doc" = some (f :: fs) →
      bindData (oneFieldDest [("form", "doc")] .fileHeader (.file ⟨0⟩)) data
          "form" files =
        (oneFieldDest [("form", "doc")] .fileHeader (.file ⟨0⟩),
          some .fileHeaderNotSupported)) := by
  constructor
  · intro files data hf hlook hnone
    have hni : (data.isEmpty && files.isEmpty) = false := by
      rcases files with _ | ⟨q, qs⟩
      · exact absurd rfl hf
      · simp
    rw [bindData_oneField [("form", "doc")] (.slice (.ptr .fileHeader))
        (.slice []) data "form" files hni,
      bindField_oneField,
      bindFieldCore_tagged_files _ _ _ _ _ _ "doc"
        (by simp [oneField, FieldDecl.anonymous])
        (by simp [oneField, FieldDecl.tags, tagGet])
        (by decide) hf]
    have hset : setMultipartFileHeaderTypes (.slice (.ptr .fileHeader)) "doc"
        files = none := by
      simp [setMultipartFileHeaderTypes, hlook]
    rw [show isFieldMultipartFile (.slice (.ptr .fileHeader)) = (true, none)
        from rfl]
    simp only [hset]
    rw [bindFieldData_no_match _ _ _ _ _ (resolveInput_eq_none _ _ hnone)]
    simp [oneFieldDest]
  · intro files f fs data hlook
    have hf : files ≠ [] := by
      intro hnil
      rw [hnil] at hlook
      simp [lookupExact] at hlook
    have hni : (data.isEmpty && files.isEmpty) = false := by
      rcases files with _ | ⟨q, qs⟩
      · exact absurd rfl hf
      · simp
    rw [bindData_oneField [("form", "doc")] .fileHeader (.file ⟨0⟩) data "form"
        files hni,
      bindField_oneField,
      bindFieldCore_tagged_files _ _ _ _ _ _ "doc"
        (by simp [oneField, FieldDecl.anonymous])
        (by simp [oneField, FieldDecl.tags, tagGet])
        (by decide) hf]
    rw [show isFieldMultipartFile .fileHeader =
        (true, some .fileHeaderNotSupported) from rfl]
    simp [oneFieldDest]

/-- Witness for C7: a file source carrying only "other" leaves the
`[]*multipart.FileHeader` field "doc" as an empty slice; a file source
carrying "doc" makes the bare-struct field fail. -/
theorem claim_C7_witness :
    bindData
        (oneFieldDest [("form", "doc")] (.slice (.ptr .fileHeader)) (.slice []))
        [] "form" [("other", [⟨1⟩])] =
      (oneFieldDest [("form", "doc")] (.slice (.ptr .fileHeader)) (.slice []),
        none) ∧
    bindData (oneFieldDest [("form", "doc")] .fileHeader (.file ⟨0⟩)) []
        "form" [("doc", [⟨1⟩])] =
      (oneFieldDest [("form", "doc")] .fileHeader (.file ⟨0⟩),
        some .fileHeaderNotSupported) :=
  ⟨claim_C7.1 [("other", [⟨1⟩])] [] (by decide) (by decide) (by decide),
   claim_C7.2 [("doc", [⟨1⟩])] ⟨1⟩ [] [] (by decide)⟩

/-- C3 counterexample, refuting two parts of the claim as stated: with
empty sources, a destination whose only field is an anonymous embedded
struct with an explicit tag binds successfully with no error at all; and
with a source key matching an earlier ordinary field, that earlier field
is mutated (to 7) before the AmbiguousMapping-class error is raised for
the embedded field. -/
theorem claim_C3_counterexample :
    bindData embOnlyDest [] "query" [] = (embOnlyDest, none) ∧
    bindData embAfterDest [("a", ["7"])] "query" [] =
      (some (.strct [.mk "A" [("query", "a")] false true (.int 0),
          embTagged "query"],
        .struct [.int 7, .struct []]), some .anonymousTag) := by
  constructor
  · exact bindData_empty_sources embOnlyDest "query"
  · simp [embAfterDest, embTagged, bindData, bindFields, bindField,
      bindFieldCore, bindFieldData, isStringKeyedMap, Ty.kind, tagGet,
      tyImplementsUnmarshaler, resolveInput, lookupExact,
      unmarshalInputsToField, unmarshalInputToField, bindScalarOrSlice,
      setWithProperType, setIntField, parseInt, digitsToNat,
      FieldDecl.anonymous, FieldDecl.ty, FieldDecl.exported, FieldDecl.tags]

/-- C3 (as amended): when at least one key is present in the value or
file source and the fields before the embedded field bind without error,
a destination containing an anonymous embedded struct-typed field with an
explicit external-name tag for the active key fails with the
AmbiguousMapping-class error, independent of whether any key matches the
embedded field; the embedded field itself and every field after it are
left unmutated, while fields before it in declaration order retain
whatever the walk already bound into them. -/
theorem claim_C3 (pre post : List FieldDecl) (preVals postVals : List Val)
    (ev : Val) (nm tagKey : String) (tags : List (String × String))
    (efs : List FieldDecl) (data : Data) (files : Files)
    (hlen : pre.length = preVals.length)
    (hne : ¬(data = [] ∧ files = []))
    (htag : tagGet tags tagKey = nm) (hnm : nm ≠ "")
    (hpre : (bindFields pre preVals data tagKey files).2 = none) :
    bindData
        (some (.strct (pre ++ (.mk "Emb" tags true true (.strct efs)) :: post),
          .struct (preVals ++ ev :: postVals))) data tagKey files =
      (some (.strct (pre ++ (.mk "Emb" tags true true (.strct efs)) :: post),
        .struct ((bindFields pre preVals data tagKey files).1 ++ ev :: postVals)),
        some .anonymousTag) := by
  have hni : (data.isEmpty && files.isEmpty) = false := by
    rcases data with _ | ⟨p, ps⟩
    · rcases files with _ | ⟨q, qs⟩
      · exact absurd ⟨rfl, rfl⟩ hne
      · rfl
    · rfl
  rw [bindData_strct _ _ _ _ _ hni]
  have hemb : bindField (.mk "Emb" tags true true (.strct efs)) ev data tagKey
      files = (ev, some .anonymousTag) := by
    rw [bindField_anon_nonptr _ _ _ _ _ (by rfl)
      (by simp [FieldDecl.ty, Ty.kind]) (by rfl)]
    exact bindFieldCore_anon_tag_err _ _ _ _ _ _ (by rfl) (by rfl)
      (by simp [FieldDecl.tags, htag, hnm])
  rw [bindFields_append_ok _ _ _ _ _ _ _ hlen hpre,
    bindFields_cons_err _ _ _ _ _ _ _ _ _ hemb]

/-- Witness for C3 (as amended): one mutable field before the embedded
tagged field, with a source key matching only that first field. -/
theorem claim_C3_witness :
    bindData embAfterDest [("z", ["1"])] "query" [] =
      (embAfterDest, some .anonymousTag) := by
  have h := claim_C3 [.mk "A" [("query", "a")] false true (.int 0)] []
    [.int 0] [] (.struct []) "e" "query" [("query", "e")] [] [("z", ["1"])] []
    rfl (by simp) rfl (by decide) ?hpre
  case hpre =>
    have hb : bindField (.mk "A" [("query", "a")] false true (.int 0)) (.int 0)
        [("z", ["1"])] "query" [] = (.int 0, none) := by
      rw [bindField_plain _ _ _ _ _ (by rfl) (by rfl),
        bindFieldCore_tagged_nofiles _ _ _ _ _ "a" (by rfl) (by rfl) (by decide),
        bindFieldData_no_match _ _ _ _ _ (resolveInput_eq_none _ _ (by decide))]
    rw [bindFields_cons_ok _ _ _ _ _ _ _ _ hb, bindFields_nil]
  have hflds : (bindFields [.mk "A" [("query", "a")] false true (.int 0)]
      [.int 0] [("z", ["1"])] "query" []).1 = [.int 0] := by
    have hb : bindField (.mk "A" [("query", "a")] false true (.int 0)) (.int 0)
        [("z", ["1"])] "query" [] = (.int 0, none) := by
      rw [bindField_plain _ _ _ _ _ (by rfl) (by rfl),
        bindFieldCore_tagged_nofiles _ _ _ _ _ "a" (by rfl) (by rfl) (by decide),
        bindFieldData_no_match _ _ _ _ _ (resolveInput_eq_none _ _ (by decide))]
    rw [bindFields_cons_ok _ _ _ _ _ _ _ _ hb, bindFields_nil]
  rw [hflds] at h
  simpa [embAfterDest, embTagged] using h

theorem Bind_skip_query (codec : Codec) (req : Request)
    (dest d1 : Option TVal) (res : Option TVal × Option HErr)
    (h1 : BindPathParams req dest = (d1, none))
    (hm : (req.method == "GET" || req.method == "DELETE" ||
      req.method == "HEAD") = false)
    (h2 : BindBody codec req d1 = res) :
    Bind codec req dest = res := by
  simp [Bind, h1, hm, h2]

theorem Bind_with_query (codec : Codec) (req : Request)
    (dest d1 d2 : Option TVal) (res : Option TVal × Option HErr)
    (h1 : BindPathParams req dest = (d1, none))
    (hm : (req.method == "GET" || req.method == "DELETE" ||
      req.method == "HEAD") = true)
    (hq : BindQueryParams req d1 = (d2, none))
    (h2 : BindBody codec req d2 = res) :
    Bind codec req dest = res := by
  simp [Bind, h1, hm, hq, h2]

theorem bindData_precedence_int (tags : List (String × String))
    (tagKey nm s : String) (v0 : Int) (n : Int)
    (htag : tagGet tags tagKey = nm) (hnm : nm ≠ "")
    (hs : parseInt s 0 = some n) :
    bindData (oneFieldDest tags (.int 0) (.int v0)) [(nm, [s])] tagKey [] =
      (oneFieldDest tags (.int 0) (.int n), none) := by
  rw [bindData_oneField tags (.int 0) (.int v0) [(nm, [s])] tagKey [] rfl,
    bindField_oneField,
    bindFieldCore_tagged_nofiles _ _ _ _ _ nm
      (by simp [oneField, FieldDecl.anonymous])
      (by simp [oneField, FieldDecl.tags, htag]) hnm]
  have hres : resolveInput [(nm, [s])] nm = some [s] := by
    simp [resolveInput, lookupExact]
  have hdty : (oneField tags (Ty.int 0)).ty = Ty.int 0 := rfl
  rw [hdty, bindFieldData_scalar _ _ _ _ _ hres (by simp [Ty.kind])
    (by simp [Ty.kind])]
  rw [show (([s] : List String).headD "") = s from rfl,
    setWithProperType_int _ _ _ _ hs]
  simp [oneFieldDest]

/-- C1: `Bind` runs the path phase before the body phase and a value
bound by the body phase overwrites the one bound by the path phase for
the same field: with path parameter id = `p` and a URL-encoded body
carrying id = `b` under a body-bearing verb, the field tagged for both
phases ends with the parsed body value; with the body removed, the same
request leaves the parsed path value in place, showing the path phase did
execute first. -/
theorem claim_C1 (codec : Codec) (p b : String) (np nb : Int)
    (hp : parseInt p 0 = some np) (hb : parseInt b 0 = some nb) :
    Bind codec (precedenceReq p b) (precedenceDest (.int 0)) =
      (precedenceDest (.int nb), none) ∧
    Bind codec (precedenceReqNoBody p) (precedenceDest (.int 0)) =
      (precedenceDest (.int np), none) := by
  have hpath : bindData (precedenceDest (.int 0)) [("id", [p])] "param" [] =
      (precedenceDest (.int np), none) :=
    bindData_precedence_int _ _ _ _ _ _ rfl (by decide) hp
  have hbody : bindData (precedenceDest (.int np)) [("id", [b])] "form" [] =
      (precedenceDest (.int nb), none) :=
    bindData_precedence_int _ _ _ _ _ _ rfl (by decide) hb
  have hparams : pathToParams ["id"] [p] = [("id", [p])] := by
    simp [pathToParams, mapSet]
  constructor
  · refine Bind_skip_query codec _ _ (precedenceDest (.int np)) _ ?_ rfl ?_
    · have hpp : pathToParams (precedenceReq p b).paramNames
          (precedenceReq p b).paramValues = [("id", [p])] := hparams
      simp [BindPathParams, hpp, hpath]
    · have hcl : ((precedenceReq p b).contentLength == 0) = false := rfl
      have hmt : mediatypeOf (precedenceReq p b).contentType =
          MIMEApplicationForm := rfl
      have hfp : (precedenceReq p b).formParams = [("id", [b])] := rfl
      simp [BindBody, hcl, hmt, hfp, MIMEApplicationJSON, MIMEApplicationXML,
        MIMETextXML, MIMEApplicationForm, MIMEMultipartForm, hbody]
  · refine Bind_skip_query codec _ _ (precedenceDest (.int np)) _ ?_ rfl ?_
    · have hpp : pathToParams (precedenceReqNoBody p).paramNames
          (precedenceReqNoBody p).paramValues = [("id", [p])] := hparams
      simp [BindPathParams, hpp, hpath]
    · have hcl : ((precedenceReqNoBody p).contentLength == 0) = true := rfl
      simp [BindBody, hcl]

/-- Witness for C1: path id=5 with body id:1 ends at 1; without the body
the field holds 5. -/
theorem claim_C1_witness :
    Bind idCodec (precedenceReq "5" "1") (precedenceDest (.int 0)) =
      (precedenceDest (.int 1), none) ∧
    Bind idCodec (precedenceReqNoBody "5") (precedenceDest (.int 0)) =
      (precedenceDest (.int 5), none) :=
  claim_C1 idCodec "5" "1" 5 1 (by decide) (by decide)

/-- C2: for every request whose method is not GET, DELETE or HEAD, `Bind`
computes exactly the two-phase path-then-body pipeline — the query phase
is never executed — and concretely a POST request with a query key
exactly matching the tagged field leaves the field untouched, while the
same request under GET, DELETE or HEAD binds the query value. -/
theorem claim_C2 (codec : Codec) (req : Request) (dest : Option TVal)
    (h : req.method ≠ "GET" ∧ req.method ≠ "DELETE" ∧ req.method ≠ "HEAD") :
    Bind codec req dest = BindSkippingQueryPhase codec req dest ∧
    (∀ m, m = "GET" ∨ m = "DELETE" ∨ m = "HEAD" →
      Bind codec (queryReq m) (queryDest (.int 0)) =
        (queryDest (.int 7), none)) ∧
    Bind codec (queryReq "POST") (queryDest (.int 0)) =
      (queryDest (.int 0), none) := by
  have hquery : bindData (queryDest (.int 0)) [("id", ["7"])] "query" [] =
      (queryDest (.int 7), none) :=
    bindData_precedence_int _ _ _ _ _ _ rfl (by decide) (by decide)
  have hpathphase : ∀ m : String,
      BindPathParams (queryReq m) (queryDest (.int 0)) =
        (queryDest (.int 0), none) := by
    intro m
    have hpp : pathToParams (queryReq m).paramNames (queryReq m).paramValues =
        [] := rfl
    simp [BindPathParams, hpp, bindData_empty_sources]
  have hbodyphase : ∀ (m : String) (v : Val),
      BindBody codec (queryReq m) (queryDest v) = (queryDest v, none) := by
    intro m v
    have hcl : ((queryReq m).contentLength == 0) = true := rfl
    simp [BindBody, hcl]
  refine ⟨?_, ?_, ?_⟩
  · have hcond : (req.method == "GET" || req.method == "DELETE" ||
        req.method == "HEAD") = false := by
      simp [h.1, h.2.1, h.2.2]
    rcases hbp : BindPathParams req dest with ⟨d1, oe⟩
    cases oe with
    | none => simp [Bind, BindSkippingQueryPhase, hbp, hcond]
    | some e => simp [Bind, BindSkippingQueryPhase, hbp]
  · intro m hm
    have hmeth : ((queryReq m).method == "GET" || (queryReq m).method == "DELETE"
        || (queryReq m).method == "HEAD") = true := by
      rcases hm with h | h | h <;> simp [queryReq, h]
    refine Bind_with_query codec _ _ (queryDest (.int 0)) (queryDest (.int 7)) _
      (hpathphase m) hmeth ?_ (hbodyphase m _)
    have hqp : (queryReq m).queryParams = [("id", ["7"])] := rfl
    simp [BindQueryParams, hqp, hquery]
  · refine Bind_skip_query codec _ _ (queryDest (.int 0)) _
      (hpathphase "POST") rfl (hbodyphase "POST" _)

/-- Witness for C2, at a POST request: `Bind` coincides with the
query-skipping pipeline, GET binds the query value 7, POST leaves the
field at 0. -/
theorem claim_C2_witness :
    Bind idCodec (queryReq "POST") (queryDest (.int 0)) =
      BindSkippingQueryPhase idCodec (queryReq "POST") (queryDest (.int 0)) ∧
    Bind idCodec (queryReq "GET") (queryDest (.int 0)) =
      (queryDest (.int 7), none) ∧
    Bind idCodec (queryReq "POST") (queryDest (.int 0)) =
      (queryDest (.int 0), none) :=
  ⟨(claim_C2 idCodec (queryReq "POST") (queryDest (.int 0))
      ⟨by decide, by decide, by decide⟩).1,
   (claim_C2 idCodec (queryReq "POST") (queryDest (.int 0))
      ⟨by decide, by decide, by decide⟩).2.1 "GET" (Or.inl rfl),
   (claim_C2 idCodec (queryReq "POST") (queryDest (.int 0))
      ⟨by decide, by decide, by decide⟩).2.2⟩

end Echo
